import Mathlib

/-!
Shallow embedding of the business-portal server (src/server.js) and proofs of
the specification claims about it.

Modelling conventions:
* JSON scalar values arriving in request bodies are modelled by `JsVal`
  (strings and numbers).  Monetary amounts are modelled with exact integer
  arithmetic (`Int`); the source uses JS floating-point numbers, and the spec
  itself flags the floating precision as a known limitation, so claims are
  settled over exact arithmetic.
* SQLite TEXT comparison (`date >= ?`, `ORDER BY timestamp DESC`) is memcmp on
  the UTF-8 bytes; all strings involved are ASCII, so it is modelled as the
  lexicographic order on the list of character codes (`lexCmp` / `sqlLe`).
* `new Date()` / `getFullYear` / `getMonth` / `getDate` arithmetic is modelled
  on calendar triples `Ymd`.  The three mutating calls the server performs
  (`setDate(d-7)`, `setMonth(m-1)`, `setFullYear(y-1)`) are translated with
  the exact JS normalization semantics restricted to valid start dates, which
  is the domain the server uses them on (`now = new Date()` is always valid).
* `new Date(string)` parsing is modelled for `YYYY-MM-DD` strings (the format
  the portal sends and the normalization target of the spec); any other input
  mapped to the JS `Invalid Date` rendering `"NaN-NaN-NaN"`.
* The server process is single-threaded; each route handler is a pure function
  from its inputs and the current store to a response and a new store.
-/

namespace BusinessPortal

/-- A JSON scalar value as it arrives in a request body. -/
inductive JsVal where
  | str (s : String)
  | num (n : Int)
deriving DecidableEq

/-- JS truthiness of an optional body field: `undefined`, `""` and `0` are
falsy; every other modelled value is truthy. -/
def truthy : Option JsVal → Bool
  | none => false
  | some (.str s) => !(s == "")
  | some (.num n) => !(n == 0)

/-- SQLite TEXT affinity / JS template rendering of a scalar. -/
def jsToDbText : JsVal → String
  | .str s => s
  | .num n => toString n

/-- Numeric reading of a scalar (`parseFloat` / REAL affinity), modelled for
numbers and decimal integer strings; other strings (which would be `NaN` in
JS) are outside the scope of every theorem below and map to `0`. -/
def jsToNumber : JsVal → Int
  | .num n => n
  | .str s => (s.toInt?).getD 0

/-! ## Calendar arithmetic -/

/-- Gregorian leap-year rule, as implemented by the JS `Date` object. -/
def isLeap (y : Nat) : Bool := (y % 4 == 0 && y % 100 != 0) || y % 400 == 0

/-- Length of month `m` (1-based) of year `y`. -/
def daysInMonth (y m : Nat) : Nat :=
  if m = 2 then (if isLeap y then 29 else 28)
  else if m = 4 ∨ m = 6 ∨ m = 9 ∨ m = 11 then 30 else 31

/-- Days in year `y` strictly before month `m` (1-based). -/
def daysBeforeMonth (y : Nat) : Nat → Nat
  | 0 => 0
  | 1 => 0
  | Nat.succ k => daysBeforeMonth y k + daysInMonth y k

/-- Days strictly before year `y` (counting from year 0). -/
def daysBeforeYear : Nat → Nat
  | 0 => 0
  | Nat.succ y => daysBeforeYear y + (if isLeap y then 366 else 365)

/-- A calendar date as held by a JS `Date` (year, 1-based month, day). -/
structure Ymd where
  y : Nat
  m : Nat
  d : Nat
deriving DecidableEq

/-- Linear day count of a date, used to state "n calendar days apart". -/
def toDays (t : Ymd) : Nat :=
  daysBeforeYear t.y + daysBeforeMonth t.y t.m + (t.d - 1)

/-- A real calendar date (what `new Date()` always yields). -/
def Ymd.Valid (t : Ymd) : Prop :=
  1 ≤ t.y ∧ 1 ≤ t.m ∧ t.m ≤ 12 ∧ 1 ≤ t.d ∧ t.d ≤ daysInMonth t.y t.m

instance (t : Ymd) : Decidable t.Valid := by
  unfold Ymd.Valid; infer_instance

/-- Models `x.setDate(now.getDate() - 7)` on a copy `x` of a valid date:
JS sets the day-of-month to `d - 7`, borrowing from the previous month when
the result is below 1. -/
def jsSetDateMinus7 (t : Ymd) : Ymd :=
  if 8 ≤ t.d then ⟨t.y, t.m, t.d - 7⟩
  else if t.m = 1 then ⟨t.y - 1, 12, 24 + t.d⟩
  else ⟨t.y, t.m - 1, daysInMonth t.y (t.m - 1) + t.d - 7⟩

/-- Models `x.setMonth(now.getMonth() - 1)` on a copy `x` of a valid date:
JS decrements the month (borrowing a year from January) and keeps the
day-of-month, rolling any overflow past the end of the shorter target month
into the following month. -/
def jsSetMonthMinus1 (t : Ymd) : Ymd :=
  if t.m = 1 then ⟨t.y - 1, 12, t.d⟩
  else if t.d ≤ daysInMonth t.y (t.m - 1) then ⟨t.y, t.m - 1, t.d⟩
  else ⟨t.y, t.m, t.d - daysInMonth t.y (t.m - 1)⟩

/-- Models `x.setFullYear(now.getFullYear() - 1)` on a copy of a valid date:
JS decrements the year and keeps month/day, rolling Feb 29 over to Mar 1 when
the target year is not leap. -/
def jsSetFullYearMinus1 (t : Ymd) : Ymd :=
  if t.d ≤ daysInMonth (t.y - 1) t.m then ⟨t.y - 1, t.m, t.d⟩
  else ⟨t.y - 1, t.m + 1, t.d - daysInMonth (t.y - 1) t.m⟩

/-! ## Date rendering (`formatDate`) and parsing -/

/-- Character codes of the two-digit zero-padded rendering of `n`. -/
def pad2bytes (n : Nat) : List Nat := [48 + n / 10 % 10, 48 + n % 10]

/-- Character codes of the four-digit zero-padded rendering of `n`. -/
def pad4bytes (n : Nat) : List Nat :=
  [48 + n / 1000 % 10, 48 + n / 100 % 10, 48 + n / 10 % 10, 48 + n % 10]

/-- Character codes of the `YYYY-MM-DD` rendering of a date (45 = `-`). -/
def ymdBytes (t : Ymd) : List Nat :=
  pad4bytes t.y ++ (45 :: (pad2bytes t.m ++ (45 :: pad2bytes t.d)))

/-- The helper `formatDate` from server.js: zero-padded `YYYY-MM-DD` rendering. -/
def formatDate (t : Ymd) : String :=
  String.mk ((ymdBytes t).map (fun b => Char.ofNat b))

/-- The character codes of a string (memcmp view; all strings here are
ASCII). -/
def strBytes (s : String) : List Nat := s.data.map Char.toNat

/-- Lexicographic (memcmp) comparison of code lists, a shorter strict
initial segment comparing less. -/
def lexCmp : List Nat → List Nat → Ordering
  | [], [] => .eq
  | [], _ :: _ => .lt
  | _ :: _, [] => .gt
  | a :: as, b :: bs =>
    if a < b then .lt else if b < a then .gt else lexCmp as bs

/-- SQLite TEXT `<=` (BINARY collation). -/
def sqlLe (a b : String) : Bool := !(lexCmp (strBytes a) (strBytes b) == .gt)

/-- SQLite TEXT `<` (BINARY collation). -/
def sqlLt (a b : String) : Bool := lexCmp (strBytes a) (strBytes b) == .lt

/-- Models `new Date(s)` for a `YYYY-MM-DD` string: accepted exactly when the three
components are digit groups forming a real calendar date. -/
def parseYmd (s : String) : Option Ymd :=
  match s.data with
  | [c1, c2, c3, c4, h1, c5, c6, h2, c7, c8] =>
    if h1 = Char.ofNat 45 ∧ h2 = Char.ofNat 45 ∧
        (c1.isDigit && c2.isDigit && c3.isDigit && c4.isDigit &&
         c5.isDigit && c6.isDigit && c7.isDigit && c8.isDigit) then
      let y := ((c1.toNat - 48) * 10 + (c2.toNat - 48)) * 100 +
               ((c3.toNat - 48) * 10 + (c4.toNat - 48))
      let m := (c5.toNat - 48) * 10 + (c6.toNat - 48)
      let d := (c7.toNat - 48) * 10 + (c8.toNat - 48)
      let t : Ymd := ⟨y, m, d⟩
      if t.Valid then some t else none
    else none
  | _ => none

/-- Models `formatDate(new Date(v))` applied to a request-body value: renders the
parsed date, or the `Invalid Date` rendering `"NaN-NaN-NaN"`. -/
def jsFormatDateVal (v : Option JsVal) : String :=
  match v with
  | some (.str s) =>
    match parseYmd s with
    | some t => formatDate t
    | none => "NaN-NaN-NaN"
  | _ => "NaN-NaN-NaN"

/-! ## Data model (the two SQLite tables) -/

/-- A row of the `transactions` table, typed per the schema: TEXT columns as
`String`, REAL columns as exact `Int` (see module comment). -/
structure Tx where
  id : Nat
  customerName : String
  phoneNumber : String
  service : String
  amountPaid : Int
  serviceBy : String
  expenses : Int
  date : String
  timestamp : String
deriving DecidableEq

/-- A row of the `messages` table. -/
structure Msg where
  id : Nat
  text : String
  sender : String
  timestamp : String
  time : String
deriving DecidableEq

/-! ## The period filter (`filter` query parameter)

The filter-building code is written out three times in server.js, once in each
of GET /api/transactions, GET /api/analytics and GET /api/admin/export; each
copy is translated separately below and C9 relates them. -/

/-- The WHERE condition a route adds for its `filter` parameter. -/
inductive DateCond where
  | eqDate (s : String)
  | geDate (s : String)
deriving DecidableEq

/-- Filter construction in GET /api/transactions (server.js lines 80-108):
`if (filter && filter !== "all") switch (filter) ...` (the source uses single
quotes); an unmatched value
falls through the switch and adds no condition. -/
def listDateCond (filter : Option String) (now : Ymd) : Option DateCond :=
  match filter with
  | none => none
  | some f =>
    if f = "" ∨ f = "all" then none
    else if f = "day" then some (.eqDate (formatDate now))
    else if f = "week" then some (.geDate (formatDate (jsSetDateMinus7 now)))
    else if f = "month" then some (.geDate (formatDate (jsSetMonthMinus1 now)))
    else if f = "year" then some (.geDate (formatDate (jsSetFullYearMinus1 now)))
    else none

/-- Filter construction in GET /api/analytics (server.js lines 176-204). -/
def analyticsDateCond (filter : Option String) (now : Ymd) : Option DateCond :=
  match filter with
  | none => none
  | some f =>
    if f = "" ∨ f = "all" then none
    else if f = "day" then some (.eqDate (formatDate now))
    else if f = "week" then some (.geDate (formatDate (jsSetDateMinus7 now)))
    else if f = "month" then some (.geDate (formatDate (jsSetMonthMinus1 now)))
    else if f = "year" then some (.geDate (formatDate (jsSetFullYearMinus1 now)))
    else none

/-- Filter construction in GET /api/admin/export (server.js lines 339-367). -/
def exportDateCond (filter : Option String) (now : Ymd) : Option DateCond :=
  match filter with
  | none => none
  | some f =>
    if f = "" ∨ f = "all" then none
    else if f = "day" then some (.eqDate (formatDate now))
    else if f = "week" then some (.geDate (formatDate (jsSetDateMinus7 now)))
    else if f = "month" then some (.geDate (formatDate (jsSetMonthMinus1 now)))
    else if f = "year" then some (.geDate (formatDate (jsSetFullYearMinus1 now)))
    else none

/-- Whether a row satisfies the WHERE condition (SQLite TEXT comparison). -/
def rowMatches (c : Option DateCond) (t : Tx) : Bool :=
  match c with
  | none => true
  | some (.eqDate s) => t.date == s
  | some (.geDate s) => sqlLe s t.date

/-- The `ORDER BY timestamp DESC` key: `a` sorts no later than `b`. -/
def tsGe (a b : Tx) : Bool := sqlLe b.timestamp a.timestamp

/-- Insertion into a timestamp-descending list. -/
def insertDesc (t : Tx) : List Tx → List Tx
  | [] => [t]
  | x :: xs => if tsGe t x then t :: x :: xs else x :: insertDesc t xs

/-- The `ORDER BY timestamp DESC` ordering (insertion sort, a deterministic
model of the engine sort). -/
def sortByTimestampDesc : List Tx → List Tx
  | [] => []
  | x :: xs => insertDesc x (sortByTimestampDesc xs)

/-- GET /api/transactions: the filtered rows, newest timestamp first. -/
def listTransactions (filter : Option String) (now : Ymd) (txs : List Tx) :
    List Tx :=
  sortByTimestampDesc (txs.filter (rowMatches (listDateCond filter now)))

/-- The rows GET /api/analytics aggregates over (its query has no ORDER BY). -/
def analyticsRows (filter : Option String) (now : Ymd) (txs : List Tx) :
    List Tx :=
  txs.filter (rowMatches (analyticsDateCond filter now))

/-- The rows GET /api/admin/export renders, newest timestamp first. -/
def exportRows (filter : Option String) (now : Ymd) (txs : List Tx) :
    List Tx :=
  sortByTimestampDesc (txs.filter (rowMatches (exportDateCond filter now)))

/-! ## POST /api/transactions -/

/-- The request body of POST /api/transactions. -/
structure TxInput where
  customerName : Option JsVal
  phoneNumber : Option JsVal
  service : Option JsVal
  amountPaid : Option JsVal
  serviceBy : Option JsVal
  expenses : Option JsVal
  date : Option JsVal
deriving DecidableEq

/-- The validation test of POST /api/transactions:
`!customerName || !phoneNumber || !service || !amountPaid || !serviceBy ||
!date` (note: `expenses` is not required). -/
def requiredMissing (inp : TxInput) : Bool :=
  !(truthy inp.customerName) || !(truthy inp.phoneNumber) ||
  !(truthy inp.service) || !(truthy inp.amountPaid) ||
  !(truthy inp.serviceBy) || !(truthy inp.date)

/-- The 400 message of POST /api/transactions. -/
def requiredMsg : String :=
  "Required fields missing: customerName, phoneNumber, service, amountPaid, serviceBy, date"

/-- Unwrap a body field after validation (validation guarantees presence on
every path that reads one). -/
def jsField (v : Option JsVal) : JsVal := v.getD (.str "")

/-- POST /api/transactions: validate, default `expenses` via
`expenses || 0`, normalize the date with `formatDate`, insert and return the
materialized record.  `newId` is the AUTOINCREMENT id the engine assigns and
`ts` the `new Date().toISOString()` creation instant. -/
def createTransaction (inp : TxInput) (newId : Nat) (ts : String) :
    Except String Tx :=
  if requiredMissing inp then .error requiredMsg
  else
    let finalExpenses : JsVal :=
      if truthy inp.expenses then jsField inp.expenses else .num 0
    .ok
      { id := newId
        customerName := jsToDbText (jsField inp.customerName)
        phoneNumber := jsToDbText (jsField inp.phoneNumber)
        service := jsToDbText (jsField inp.service)
        amountPaid := jsToNumber (jsField inp.amountPaid)
        serviceBy := jsToDbText (jsField inp.serviceBy)
        expenses := jsToNumber finalExpenses
        date := jsFormatDateVal inp.date
        timestamp := ts }

/-! ## GET /api/analytics -/

/-- The analytics payload. `servicePerformance` is a JS object, modelled as an
association list with unique keys in insertion order. -/
structure Analytics where
  totalIncome : Int
  totalExpenses : Int
  netIncome : Int
  servicePerformance : List (String × Int)
  transactionCount : Nat
deriving DecidableEq

/-- The seeded `servicePerformance` object. -/
def seedPerf : List (String × Int) :=
  [("Photography", 0), ("Makeup", 0), ("Product Sales", 0)]

/-- One loop step: `if hasOwnProperty(service) then += amountPaid else
= amountPaid` — add to the (unique) existing entry, or append a new key. -/
def perfAdd : List (String × Int) → String → Int → List (String × Int)
  | [], k, a => [(k, a)]
  | p :: ps, k, a =>
    if p.1 == k then (p.1, p.2 + a) :: ps else p :: perfAdd ps k a

/-- Sum of the values of the `servicePerformance` object. -/
def sumVals : List (String × Int) → Int
  | [] => 0
  | p :: ps => p.2 + sumVals ps

/-- GET /api/analytics: fold the filtered rows into the summary
(server.js lines 206-235). -/
def computeAnalytics (filter : Option String) (now : Ymd) (txs : List Tx) :
    Analytics :=
  let rows := analyticsRows filter now txs
  let totalIncome := rows.foldl (fun s t => s + t.amountPaid) 0
  let totalExpenses := rows.foldl (fun s t => s + t.expenses) 0
  { totalIncome := totalIncome
    totalExpenses := totalExpenses
    netIncome := totalIncome - totalExpenses
    servicePerformance :=
      rows.foldl (fun m t => perfAdd m t.service t.amountPaid) seedPerf
    transactionCount := rows.length }

/-! ## GET /api/admin/export (CSV branch) -/

/-- The CSV header row. -/
def csvHeader : String :=
  "Date,Customer Name,Phone Number,Service,Amount Paid,Service By,Expenses,Net Profit,Timestamp"

/-- One CSV data line: every field quoted, `netProfit = amountPaid -
expenses`, terminated by a newline. -/
def csvRow (t : Tx) : String :=
  "\"" ++ t.date ++ "\",\"" ++ t.customerName ++ "\",\"" ++ t.phoneNumber ++
  "\",\"" ++ t.service ++ "\",\"" ++ toString t.amountPaid ++ "\",\"" ++
  t.serviceBy ++ "\",\"" ++ toString t.expenses ++ "\",\"" ++
  toString (t.amountPaid - t.expenses) ++ "\",\"" ++ t.timestamp ++ "\"\n"

/-- GET /api/admin/export with `format=csv`: header line then one appended
line per ordered row. -/
def exportCsv (filter : Option String) (now : Ymd) (txs : List Tx) : String :=
  (exportRows filter now txs).foldl (fun acc r => acc ++ csvRow r)
    (csvHeader ++ "\n")

/-! ## Store, backup and clear-all -/

/-- The server-side state: the two record sets, whether the SQLite file
exists on disk, and the backup directory (a mapping from file path to the
snapshotted file contents, i.e. both record sets). -/
structure Store where
  transactions : List Tx
  messages : List Msg
  dbExists : Bool
  backups : List (String × (List Tx × List Msg))
deriving DecidableEq

/-- Backup file path for a given day:
`${backupDir}/business_${timestamp}.db` with the default directory. -/
def backupPath (today : String) : String :=
  "./backups/business_" ++ today ++ ".db"

/-- File-system write: overwrite the entry at a path, or create it. -/
def setEntry {α : Type} : List (String × α) → String → α → List (String × α)
  | [], k, v => [(k, v)]
  | p :: ps, k, v => if p.1 == k then (k, v) :: ps else p :: setEntry ps k v

/-- File-system read. -/
def lookupEntry {α : Type} : List (String × α) → String → Option α
  | [], _ => none
  | p :: ps, k => if p.1 == k then some p.2 else lookupEntry ps k

/-- Number of directory entries at a path. -/
def countKey {α : Type} (l : List (String × α)) (k : String) : Nat :=
  (l.filter (fun p => p.1 == k)).length

/-- Models `backupDatabase()` (server.js lines 444-466): copy the database file to
the date-named backup path; warn and do nothing when the database file does
not exist.  Returns the new store and whether the warning was logged. -/
def backupDatabase (s : Store) (today : String) : Store × Bool :=
  if s.dbExists then
    ({ s with
        backups :=
          setEntry s.backups (backupPath today) (s.transactions, s.messages) },
      false)
  else (s, true)

/-- The sentinel confirmation value of DELETE /api/admin/clear-data. -/
def clearSentinel : String := "YES_DELETE_ALL_DATA"

/-- The 400 message of DELETE /api/admin/clear-data. -/
def confirmMsg : String :=
  "Confirmation required. Send confirmClear: \"YES_DELETE_ALL_DATA\""

/-- The success response body of DELETE /api/admin/clear-data: note the
`cleared` object carries the booleans `true`/`true`, not row counts. -/
structure ClearResult where
  message : String
  clearedTransactions : Bool
  clearedMessages : Bool
  backup : String
  timestamp : String
deriving DecidableEq

/-- Full outcome of DELETE /api/admin/clear-data: the response, the new
store, and the server-console log lines (where the deleted-row counts go). -/
structure ClearOutcome where
  response : Except String ClearResult
  store : Store
  logs : List String

/-- DELETE /api/admin/clear-data (server.js lines 290-330): require the exact
sentinel, back up, then delete both record sets, logging each count
(`this.changes`). -/
def clearAllData (confirmClear : Option JsVal) (s : Store)
    (today ts : String) : ClearOutcome :=
  if confirmClear = some (.str clearSentinel) then
    let s1 := (backupDatabase s today).1
    { response := .ok
        { message := "All data cleared successfully"
          clearedTransactions := true
          clearedMessages := true
          backup := "Data backed up before clearing"
          timestamp := ts }
      store := { s1 with transactions := [], messages := [] }
      logs :=
        ["Cleared " ++ toString s1.transactions.length ++ " transactions",
         "Cleared " ++ toString s1.messages.length ++ " messages"] }
  else { response := .error confirmMsg, store := s, logs := [] }

/-! ## Lemmas: lexicographic comparison -/

/-- Three-way comparison on `Nat` (explicit, simp-friendly form). -/
def natCmp (a b : Nat) : Ordering :=
  if a < b then .lt else if b < a then .gt else .eq

/-- Three-way comparison of calendar triples (year, then month, then day). -/
def ymdCmp (s t : Ymd) : Ordering :=
  (natCmp s.y t.y).then ((natCmp s.m t.m).then (natCmp s.d t.d))

theorem natCmp_self (a : Nat) : natCmp a a = .eq := by
  simp [natCmp]

theorem natCmp_eq_lt (a b : Nat) (h : a < b) : natCmp a b = .lt := by
  simp [natCmp, h]

theorem lexCmp_self (l : List Nat) : lexCmp l l = .eq := by
  induction l with
  | nil => rfl
  | cons x xs ih => simp [lexCmp, ih]

theorem lexCmp_cons_same (a : Nat) (l1 l2 : List Nat) :
    lexCmp (a :: l1) (a :: l2) = lexCmp l1 l2 := by
  simp [lexCmp]

theorem lexCmp_append (as bs cs ds : List Nat) (h : as.length = bs.length) :
    lexCmp (as ++ cs) (bs ++ ds) = (lexCmp as bs).then (lexCmp cs ds) := by
  induction as generalizing bs with
  | nil =>
    cases bs with
    | nil => simp [lexCmp, Ordering.then]
    | cons y ys => simp at h
  | cons x xs ih =>
    cases bs with
    | nil => simp at h
    | cons y ys =>
      simp only [List.length_cons, Nat.succ.injEq] at h
      by_cases hxy : x < y
      · simp [lexCmp, hxy, Ordering.then]
      · by_cases hyx : y < x
        · simp [lexCmp, hxy, hyx, Ordering.then]
        · simp [lexCmp, hxy, hyx, ih ys h]

theorem lexCmp_trans_le {a b c : List Nat} (h1 : lexCmp a b ≠ .gt)
    (h2 : lexCmp b c ≠ .gt) : lexCmp a c ≠ .gt := by
  induction a generalizing b c with
  | nil =>
    cases c with
    | nil => simp [lexCmp]
    | cons z zs => simp [lexCmp]
  | cons x xs ih =>
    cases b with
    | nil => simp [lexCmp] at h1
    | cons y ys =>
      cases c with
      | nil => simp [lexCmp] at h2
      | cons z zs =>
        have hxy : ¬ y < x := by
          intro hc
          apply h1
          simp [lexCmp, hc, Nat.lt_asymm hc]
        have hyz : ¬ z < y := by
          intro hc
          apply h2
          simp [lexCmp, hc, Nat.lt_asymm hc]
        by_cases hxz : x < z
        · simp [lexCmp, hxz]
        · have hxez : x = z := by omega
          subst hxez
          have hyex : y = x := by omega
          subst hyex
          rw [lexCmp_cons_same] at h1 h2 ⊢
          exact ih h1 h2

theorem sqlLe_trans {a b c : String} (h1 : sqlLe a b = true)
    (h2 : sqlLe b c = true) : sqlLe a c = true := by
  have g1 : lexCmp (strBytes a) (strBytes b) ≠ .gt := by
    intro he
    unfold sqlLe at h1
    rw [he] at h1
    exact Bool.noConfusion h1
  have g2 : lexCmp (strBytes b) (strBytes c) ≠ .gt := by
    intro he
    unfold sqlLe at h2
    rw [he] at h2
    exact Bool.noConfusion h2
  have g3 := lexCmp_trans_le g1 g2
  unfold sqlLe
  cases ho : lexCmp (strBytes a) (strBytes c)
  · rfl
  · rfl
  · exact absurd ho g3

theorem sqlLt_to_le {a b : String} (h : sqlLt a b = true) : sqlLe a b = true := by
  unfold sqlLt at h
  unfold sqlLe
  cases ho : lexCmp (strBytes a) (strBytes b)
  · rfl
  · rfl
  · rw [ho] at h
    exact Bool.noConfusion h

theorem sqlLt_ne {a b : String} (h : sqlLt a b = true) : a ≠ b := by
  intro he
  subst he
  unfold sqlLt at h
  rw [lexCmp_self] at h
  exact Bool.noConfusion h

/-! ## Lemmas: rendering of dates and its order -/

theorem char_roundtrip : ∀ k < 60, (Char.ofNat k).toNat = k := by decide

theorem strBytes_formatDate (t : Ymd) : strBytes (formatDate t) = ymdBytes t := by
  have h60 := char_roundtrip
  unfold strBytes formatDate
  have hdata : (String.mk ((ymdBytes t).map (fun b => Char.ofNat b))).data
      = (ymdBytes t).map (fun b => Char.ofNat b) := rfl
  rw [hdata, List.map_map]
  unfold ymdBytes pad4bytes pad2bytes
  simp only [List.cons_append, List.nil_append, List.map_cons, List.map_nil,
    Function.comp_apply, List.cons.injEq, and_true]
  refine ⟨?_, ?_, ?_, ?_, ?_, ?_, ?_, ?_, ?_, ?_⟩ <;> exact h60 _ (by omega)

set_option maxRecDepth 4000 in
theorem lexCmp_pad2 : ∀ a < 100, ∀ b < 100,
    lexCmp (pad2bytes a) (pad2bytes b) = natCmp a b := by decide

theorem pad4bytes_decomp (n : Nat) :
    pad4bytes n = pad2bytes (n / 100) ++ pad2bytes (n % 100) := by
  simp only [pad4bytes, pad2bytes, List.cons_append, List.nil_append,
    List.cons.injEq, and_true, true_and]
  omega

theorem lexCmp_pad4 (a b : Nat) (ha : a < 10000) (hb : b < 10000) :
    lexCmp (pad4bytes a) (pad4bytes b) = natCmp a b := by
  rw [pad4bytes_decomp a, pad4bytes_decomp b,
    lexCmp_append (pad2bytes (a / 100)) (pad2bytes (b / 100)) _ _ rfl,
    lexCmp_pad2 (a / 100) (by omega) (b / 100) (by omega),
    lexCmp_pad2 (a % 100) (by omega) (b % 100) (by omega)]
  rcases Nat.lt_trichotomy (a / 100) (b / 100) with h | h | h
  · have hab : a < b := by omega
    simp [natCmp, h, hab, Ordering.then]
  · rw [h, natCmp_self]
    rcases Nat.lt_trichotomy (a % 100) (b % 100) with h2 | h2 | h2
    · have hab : a < b := by omega
      simp [natCmp, h2, hab, Ordering.then]
    · have hab : a = b := by omega
      simp [hab, natCmp_self, Ordering.then]
    · have hab : b < a := by omega
      simp [natCmp, h2, hab, Nat.lt_asymm h2, Nat.lt_asymm hab, Ordering.then]
  · have hab : b < a := by omega
    simp [natCmp, h, hab, Nat.lt_asymm h, Nat.lt_asymm hab, Ordering.then]

theorem lexCmp_ymdBytes (s t : Ymd) (hs : s.y < 10000) (ht : t.y < 10000)
    (hsm : s.m < 100) (htm : t.m < 100) (hsd : s.d < 100) (htd : t.d < 100) :
    lexCmp (ymdBytes s) (ymdBytes t) = ymdCmp s t := by
  unfold ymdBytes
  rw [lexCmp_append (pad4bytes s.y) (pad4bytes t.y) _ _ rfl,
    lexCmp_pad4 _ _ hs ht, lexCmp_cons_same,
    lexCmp_append (pad2bytes s.m) (pad2bytes t.m) _ _ rfl,
    lexCmp_pad2 _ hsm _ htm, lexCmp_cons_same, lexCmp_pad2 _ hsd _ htd]
  rfl

/-- The `YYYY-MM-DD` rendering is monotone: calendar order gives SQLite TEXT
order, for components within rendering range. -/
theorem sqlLe_formatDate (s t : Ymd) (hs : s.y < 10000) (ht : t.y < 10000)
    (hsm : s.m < 100) (htm : t.m < 100) (hsd : s.d < 100) (htd : t.d < 100)
    (h : ymdCmp s t ≠ .gt) : sqlLe (formatDate s) (formatDate t) = true := by
  unfold sqlLe
  rw [strBytes_formatDate, strBytes_formatDate,
    lexCmp_ymdBytes s t hs ht hsm htm hsd htd]
  cases ho : ymdCmp s t
  · rfl
  · rfl
  · exact absurd ho h

/-! ## Lemmas: calendar arithmetic -/

theorem daysInMonth_bounds (y m : Nat) :
    28 ≤ daysInMonth y m ∧ daysInMonth y m ≤ 31 := by
  unfold daysInMonth
  split_ifs <;> omega

theorem daysBeforeMonth_succ (y k : Nat) (h : 1 ≤ k) :
    daysBeforeMonth y (k + 1) = daysBeforeMonth y k + daysInMonth y k := by
  cases k with
  | zero => omega
  | succ n => rfl

theorem daysBeforeMonth_twelve (y : Nat) :
    daysBeforeMonth y 12 = 334 + (if isLeap y then 1 else 0) := by
  cases h : isLeap y <;>
    simp [show (12 : Nat) = 11 + 1 from rfl, show (11 : Nat) = 10 + 1 from rfl,
      show (10 : Nat) = 9 + 1 from rfl, show (9 : Nat) = 8 + 1 from rfl,
      show (8 : Nat) = 7 + 1 from rfl, show (7 : Nat) = 6 + 1 from rfl,
      show (6 : Nat) = 5 + 1 from rfl, show (5 : Nat) = 4 + 1 from rfl,
      show (4 : Nat) = 3 + 1 from rfl, show (3 : Nat) = 2 + 1 from rfl,
      show (2 : Nat) = 1 + 1 from rfl, daysBeforeMonth, daysInMonth, h]

theorem daysBeforeYear_succ (y : Nat) :
    daysBeforeYear (y + 1) =
      daysBeforeYear y + (if isLeap y then 366 else 365) := rfl

/-- The call `setDate(getDate() - 7)` moves a valid date exactly 7 days back. -/
theorem toDays_jsSetDateMinus7 (t : Ymd) (hv : t.Valid) :
    toDays (jsSetDateMinus7 t) + 7 = toDays t := by
  obtain ⟨y, m, d⟩ := t
  obtain ⟨hy, hm1, hm12, hd1, hdm⟩ := hv
  dsimp only at hy hm1 hm12 hd1 hdm
  unfold jsSetDateMinus7
  dsimp only
  split_ifs with h8 hjan
  · simp only [toDays]
    omega
  · -- January: borrow from December of the previous year
    subst hjan
    obtain ⟨y1, rfl⟩ : ∃ y1, y = y1 + 1 := ⟨y - 1, by omega⟩
    simp only [toDays, Nat.add_sub_cancel]
    rw [daysBeforeYear_succ y1, daysBeforeMonth_twelve y1]
    have h0 : daysBeforeMonth (y1 + 1) 1 = 0 := rfl
    rw [h0]
    cases isLeap y1 <;> simp <;> omega
  · -- borrow from the previous month of the same year
    obtain ⟨k, rfl⟩ : ∃ k, m = k + 2 := ⟨m - 2, by omega⟩
    have hred : ∀ n : Nat, n + 2 - 1 = n + 1 := fun n => rfl
    simp only [toDays, hred]
    rw [show k + 2 = (k + 1) + 1 from rfl,
      daysBeforeMonth_succ y (k + 1) (by omega)]
    have hb := daysInMonth_bounds y (k + 1)
    omega

/-- The call `setDate(getDate() - 7)` yields a strictly earlier date with in-range
components. -/
theorem jsSetDateMinus7_lt (t : Ymd) (hv : t.Valid) :
    ymdCmp (jsSetDateMinus7 t) t = .lt ∧
      (jsSetDateMinus7 t).y ≤ t.y ∧ (jsSetDateMinus7 t).m < 100 ∧
      (jsSetDateMinus7 t).d < 100 := by
  obtain ⟨y, m, d⟩ := t
  obtain ⟨hy, hm1, hm12, hd1, hdm⟩ := hv
  dsimp only at hy hm1 hm12 hd1 hdm
  have hb31 := daysInMonth_bounds y m
  unfold jsSetDateMinus7
  dsimp only
  split_ifs with h8 hjan
  · refine ⟨?_, by dsimp only; omega, by dsimp only; omega,
      by dsimp only; omega⟩
    have hlt : d - 7 < d := by omega
    simp [ymdCmp, natCmp_self, natCmp, hlt, Nat.lt_asymm hlt, Ordering.then]
  · refine ⟨?_, by dsimp only; omega, by dsimp only; omega,
      by dsimp only; omega⟩
    have hlt : y - 1 < y := by omega
    simp [ymdCmp, natCmp, hlt, Nat.lt_asymm hlt, Ordering.then]
  · have hb2 := daysInMonth_bounds y (m - 1)
    refine ⟨?_, by dsimp only; omega, by dsimp only; omega,
      by dsimp only; omega⟩
    have hlt : m - 1 < m := by omega
    simp [ymdCmp, natCmp_self, natCmp, hlt, Nat.lt_asymm hlt, Ordering.then]

/-- The call `setMonth(getMonth() - 1)` yields a strictly earlier date with in-range
components. -/
theorem jsSetMonthMinus1_lt (t : Ymd) (hv : t.Valid) :
    ymdCmp (jsSetMonthMinus1 t) t = .lt ∧
      (jsSetMonthMinus1 t).y ≤ t.y ∧ (jsSetMonthMinus1 t).m < 100 ∧
      (jsSetMonthMinus1 t).d < 100 := by
  obtain ⟨y, m, d⟩ := t
  obtain ⟨hy, hm1, hm12, hd1, hdm⟩ := hv
  dsimp only at hy hm1 hm12 hd1 hdm
  have hb31 := daysInMonth_bounds y m
  have hb2 := daysInMonth_bounds y (m - 1)
  unfold jsSetMonthMinus1
  dsimp only
  split_ifs with hjan hfit
  · refine ⟨?_, by dsimp only; omega, by dsimp only; omega,
      by dsimp only; omega⟩
    have hlt : y - 1 < y := by omega
    simp [ymdCmp, natCmp, hlt, Nat.lt_asymm hlt, Ordering.then]
  · refine ⟨?_, by dsimp only; omega, by dsimp only; omega,
      by dsimp only; omega⟩
    have hlt : m - 1 < m := by omega
    simp [ymdCmp, natCmp_self, natCmp, hlt, Nat.lt_asymm hlt, Ordering.then]
  · refine ⟨?_, by dsimp only; omega, by dsimp only; omega,
      by dsimp only; omega⟩
    have hlt : d - daysInMonth y (m - 1) < d := by omega
    simp [ymdCmp, natCmp_self, natCmp, hlt, Nat.lt_asymm hlt, Ordering.then]

/-- The call `setFullYear(getFullYear() - 1)` yields a strictly earlier date with
in-range components. -/
theorem jsSetFullYearMinus1_lt (t : Ymd) (hv : t.Valid) :
    ymdCmp (jsSetFullYearMinus1 t) t = .lt ∧
      (jsSetFullYearMinus1 t).y ≤ t.y ∧ (jsSetFullYearMinus1 t).m < 100 ∧
      (jsSetFullYearMinus1 t).d < 100 := by
  obtain ⟨y, m, d⟩ := t
  obtain ⟨hy, hm1, hm12, hd1, hdm⟩ := hv
  dsimp only at hy hm1 hm12 hd1 hdm
  have hb31 := daysInMonth_bounds y m
  have hbp := daysInMonth_bounds (y - 1) m
  unfold jsSetFullYearMinus1
  dsimp only
  split_ifs with hfit
  · refine ⟨?_, by dsimp only; omega, by dsimp only; omega,
      by dsimp only; omega⟩
    have hlt : y - 1 < y := by omega
    simp [ymdCmp, natCmp, hlt, Nat.lt_asymm hlt, Ordering.then]
  · refine ⟨?_, by dsimp only; omega, by dsimp only; omega,
      by dsimp only; omega⟩
    have hlt : y - 1 < y := by omega
    simp [ymdCmp, natCmp, hlt, Nat.lt_asymm hlt, Ordering.then]

/-! ## Lemmas: ordering of query results -/

theorem insertDesc_perm (t : Tx) (l : List Tx) :
    (insertDesc t l).Perm (t :: l) := by
  induction l with
  | nil => exact List.Perm.refl _
  | cons x xs ih =>
    unfold insertDesc
    split_ifs
    · exact List.Perm.refl _
    · exact (List.Perm.cons x ih).trans (List.Perm.swap t x xs)

theorem sortByTimestampDesc_perm (l : List Tx) :
    (sortByTimestampDesc l).Perm l := by
  induction l with
  | nil => exact List.Perm.refl _
  | cons x xs ih =>
    unfold sortByTimestampDesc
    exact (insertDesc_perm x (sortByTimestampDesc xs)).trans (ih.cons x)

theorem mem_sortByTimestampDesc (t : Tx) (l : List Tx) :
    t ∈ sortByTimestampDesc l ↔ t ∈ l :=
  (sortByTimestampDesc_perm l).mem_iff

theorem lexCmp_swap (a b : List Nat) : lexCmp b a = (lexCmp a b).swap := by
  induction a generalizing b with
  | nil =>
    cases b with
    | nil => rfl
    | cons y ys => rfl
  | cons x xs ih =>
    cases b with
    | nil => rfl
    | cons y ys =>
      by_cases hxy : x < y
      · simp [lexCmp, hxy, Nat.lt_asymm hxy, Ordering.swap]
      · by_cases hyx : y < x
        · simp [lexCmp, hxy, hyx, Ordering.swap]
        · simp [lexCmp, hxy, hyx, ih ys]

theorem tsGe_total (a b : Tx) : tsGe a b = true ∨ tsGe b a = true := by
  unfold tsGe sqlLe
  rw [lexCmp_swap (strBytes a.timestamp) (strBytes b.timestamp)]
  cases lexCmp (strBytes a.timestamp) (strBytes b.timestamp)
  all_goals first | (left; rfl) | (right; rfl)

theorem tsGe_trans {a b c : Tx} (h1 : tsGe a b = true) (h2 : tsGe b c = true) :
    tsGe a c = true :=
  sqlLe_trans h2 h1

theorem pairwise_insertDesc (t : Tx) (l : List Tx)
    (hs : l.Pairwise (fun a b => tsGe a b = true)) :
    (insertDesc t l).Pairwise (fun a b => tsGe a b = true) := by
  induction l with
  | nil => simp [insertDesc]
  | cons x xs ih =>
    unfold insertDesc
    rcases List.pairwise_cons.mp hs with ⟨hx, hxs⟩
    split_ifs with hge
    · refine List.pairwise_cons.mpr ⟨?_, hs⟩
      intro b hb
      rcases List.mem_cons.mp hb with rfl | hb
      · exact hge
      · exact tsGe_trans hge (hx b hb)
    · refine List.pairwise_cons.mpr ⟨?_, ih hxs⟩
      intro b hb
      rcases List.mem_cons.mp ((insertDesc_perm t xs).mem_iff.mp hb) with
        rfl | hb2
      · rcases tsGe_total b x with h | h
        · exact absurd h hge
        · exact h
      · exact hx b hb2

theorem pairwise_sortByTimestampDesc (l : List Tx) :
    (sortByTimestampDesc l).Pairwise (fun a b => tsGe a b = true) := by
  induction l with
  | nil => simp [sortByTimestampDesc]
  | cons x xs ih => exact pairwise_insertDesc x _ ih

theorem mem_listTransactions (t : Tx) (f : Option String) (now : Ymd)
    (txs : List Tx) :
    t ∈ listTransactions f now txs ↔
      t ∈ txs ∧ rowMatches (listDateCond f now) t = true := by
  unfold listTransactions
  rw [mem_sortByTimestampDesc]
  exact List.mem_filter

/-! ## Lemmas: analytics folds -/

theorem sumVals_perfAdd (m : List (String × Int)) (k : String) (a : Int) :
    sumVals (perfAdd m k a) = sumVals m + a := by
  induction m with
  | nil => simp [perfAdd, sumVals]
  | cons p ps ih =>
    unfold perfAdd
    split_ifs with h
    · simp [sumVals]
      ring
    · simp [sumVals, ih]
      ring

theorem sumVals_foldl_perfAdd (rows : List Tx) (m0 : List (String × Int)) :
    sumVals (rows.foldl (fun m t => perfAdd m t.service t.amountPaid) m0) =
      sumVals m0 + (rows.map Tx.amountPaid).sum := by
  induction rows generalizing m0 with
  | nil => simp
  | cons r rs ih =>
    simp only [List.foldl_cons, List.map_cons, List.sum_cons]
    rw [ih, sumVals_perfAdd]
    ring

theorem foldl_add_shift (rows : List Tx) (f : Tx → Int) (c : Int) :
    rows.foldl (fun s t => s + f t) c = c + (rows.map f).sum := by
  induction rows generalizing c with
  | nil => simp
  | cons r rs ih =>
    simp only [List.foldl_cons, List.map_cons, List.sum_cons]
    rw [ih]
    ring

/-! ## Lemmas: strings and the CSV body -/

theorem strAppend_assoc (a b c : String) : a ++ b ++ c = a ++ (b ++ c) := by
  cases a with
  | mk as =>
    cases b with
    | mk bs =>
      cases c with
      | mk cs =>
        show String.mk (as ++ bs ++ cs) = String.mk (as ++ (bs ++ cs))
        rw [List.append_assoc]

/-- The data lines of the CSV payload for a given (already ordered) row
list. -/
def csvBody : List Tx → String
  | [] => ""
  | r :: rs => csvRow r ++ csvBody rs

theorem foldl_csvRow (rows : List Tx) (acc : String) :
    rows.foldl (fun a r => a ++ csvRow r) acc = acc ++ csvBody rows := by
  induction rows generalizing acc with
  | nil =>
    show acc = acc ++ ""
    cases acc with
    | mk l =>
      show String.mk l = String.mk (l ++ [])
      rw [List.append_nil]
  | cons r rs ih =>
    simp only [List.foldl_cons, csvBody]
    rw [ih, strAppend_assoc]

/-! ## Lemmas: the backup directory -/

theorem lookupEntry_setEntry {α : Type} (l : List (String × α)) (k : String)
    (v : α) : lookupEntry (setEntry l k v) k = some v := by
  induction l with
  | nil => simp [setEntry, lookupEntry]
  | cons p ps ih =>
    by_cases h : (p.1 == k) = true
    · simp [setEntry, h, lookupEntry]
    · simp [setEntry, h, lookupEntry, ih]

theorem setEntry_idem {α : Type} (l : List (String × α)) (k : String) (v : α) :
    setEntry (setEntry l k v) k v = setEntry l k v := by
  induction l with
  | nil => simp [setEntry]
  | cons p ps ih =>
    by_cases h : (p.1 == k) = true
    · simp [setEntry, h]
    · simp [setEntry, h, ih]

theorem countKey_setEntry {α : Type} (l : List (String × α)) (k : String)
    (v : α) (h : countKey l k ≤ 1) : countKey (setEntry l k v) k = 1 := by
  induction l with
  | nil => simp [setEntry, countKey]
  | cons p ps ih =>
    by_cases hp : (p.1 == k) = true
    · unfold countKey at h ⊢
      simp only [List.filter_cons, hp, if_pos, List.length_cons] at h
      simp only [setEntry, hp, if_pos, List.filter_cons, beq_self_eq_true,
        List.length_cons]
      omega
    · have hse : setEntry (p :: ps) k v = p :: setEntry ps k v := by
        simp [setEntry, hp]
      have hskip : ∀ rest : List (String × α),
          countKey (p :: rest) k = countKey rest k := by
        intro rest
        unfold countKey
        simp [List.filter_cons, hp]
      rw [hskip ps] at h
      rw [hse, hskip (setEntry ps k v)]
      exact ih h

/-! ## Sample data for closed witnesses -/

/-- A sample stored transaction (the one from the CSV scenario of the spec). -/
def txA : Tx :=
  ⟨1, "A", "1", "X", 10, "B", 2, "2024-01-01", "2024-01-01T00:00:00.000Z"⟩

/-- A second sample stored transaction. -/
def txB : Tx :=
  ⟨2, "C", "2", "Makeup", 50, "D", 0, "2024-06-15", "2024-06-15T10:00:00.000Z"⟩

/-- A future-dated stored transaction. -/
def txFut : Tx :=
  ⟨9, "F", "3", "X", 5, "B", 0, "2025-01-01", "2025-01-01T00:00:00.000Z"⟩

/-- A sample stored message. -/
def msgA : Msg := ⟨1, "hello", "portal", "2024-01-01T00:00:00.000Z", "00:00"⟩

/-- A populated store whose database file exists. -/
def storeA : Store := ⟨[txA, txB], [msgA], true, []⟩

/-- An empty store whose database file exists. -/
def storeEmpty : Store := ⟨[], [], true, []⟩

/-- A store whose database file is missing. -/
def storeNoDb : Store := ⟨[txA], [msgA], false, []⟩

/-! ## Claims -/

/-- C5: for every input transaction set (and period), the analytics summary
satisfies `netIncome = totalIncome - totalExpenses`, the values of
`servicePerformance` sum to `totalIncome`, and `transactionCount` is the
number of transactions considered. -/
theorem analytics_invariants (f : Option String) (now : Ymd) (txs : List Tx) :
    (computeAnalytics f now txs).netIncome =
        (computeAnalytics f now txs).totalIncome -
          (computeAnalytics f now txs).totalExpenses ∧
      sumVals (computeAnalytics f now txs).servicePerformance =
        (computeAnalytics f now txs).totalIncome ∧
      (computeAnalytics f now txs).transactionCount =
        (analyticsRows f now txs).length := by
  refine ⟨rfl, ?_, rfl⟩
  show sumVals ((analyticsRows f now txs).foldl
      (fun m t => perfAdd m t.service t.amountPaid) seedPerf) =
    (analyticsRows f now txs).foldl (fun s t => s + t.amountPaid) 0
  rw [sumVals_foldl_perfAdd, foldl_add_shift]
  rfl

set_option maxRecDepth 10000 in
/-- C6: CSV export is exactly the fixed header line followed by one data line
per transaction; the rendered rows are the filtered rows in newest-first
order; and the concrete one-transaction example from the spec produces the
header plus exactly one data line with net profit 8. -/
theorem exportCsv_spec (f : Option String) (now : Ymd) (txs : List Tx) :
    exportCsv f now txs =
        csvHeader ++ "\n" ++ csvBody (exportRows f now txs) ∧
      (exportRows f now txs).Perm
        (txs.filter (rowMatches (exportDateCond f now))) ∧
      (exportRows f now txs).Pairwise (fun a b => tsGe a b = true) ∧
      exportCsv (some "all") ⟨2024, 6, 15⟩ [txA] =
        csvHeader ++ "\n" ++
          "\"2024-01-01\",\"A\",\"1\",\"X\",\"10\",\"B\",\"2\",\"8\",\"2024-01-01T00:00:00.000Z\"\n" := by
  refine ⟨foldl_csvRow _ _, sortByTimestampDesc_perm _,
    pairwise_sortByTimestampDesc _, by decide⟩

/-- C9: the three routes build the identical period filter, and the row sets
considered by analytics and rendered by export coincide with the rows
returned by the transaction listing. -/
theorem period_filters_agree (f : Option String) (now : Ymd) (txs : List Tx) :
    listDateCond f now = analyticsDateCond f now ∧
      listDateCond f now = exportDateCond f now ∧
      exportRows f now txs = listTransactions f now txs ∧
      ∀ t : Tx, t ∈ analyticsRows f now txs ↔
        t ∈ listTransactions f now txs := by
  refine ⟨rfl, rfl, rfl, ?_⟩
  intro t
  rw [mem_listTransactions]
  unfold analyticsRows
  rw [List.mem_filter]
  exact Iff.rfl

/-- C7 counterexample: two stores with different record counts produce the
very same clear-data response, so the response cannot report the counts of
removed records. -/
theorem clearResponse_no_counts :
    (clearAllData (some (.str clearSentinel)) storeA "2024-06-15" "TS").response
        = (clearAllData (some (.str clearSentinel)) storeEmpty "2024-06-15"
            "TS").response ∧
      storeA.transactions.length ≠ storeEmpty.transactions.length ∧
      storeA.messages.length ≠ storeEmpty.messages.length :=
  ⟨rfl, by decide, by decide⟩

/-- C7 (amended): on a successful clear the response reports per-record-set
boolean cleared flags and a backup notice; the per-record-set deletion counts
appear only in the server console log. -/
theorem clearAllData_reports (s : Store) (today ts : String) :
    (clearAllData (some (.str clearSentinel)) s today ts).response =
        .ok ⟨"All data cleared successfully", true, true,
          "Data backed up before clearing", ts⟩ ∧
      (clearAllData (some (.str clearSentinel)) s today ts).logs =
        ["Cleared " ++ toString s.transactions.length ++ " transactions",
         "Cleared " ++ toString s.messages.length ++ " messages"] := by
  unfold clearAllData
  rw [if_pos rfl]
  refine ⟨rfl, ?_⟩
  unfold backupDatabase
  cases hdb : s.dbExists <;> simp [hdb]

/-- C8: the backup destination is named by the current day, so a second
backup the same day overwrites the first (exactly one artifact per day), and
a backup with no database file is a no-op that emits the warning. -/
theorem backupDatabase_spec (s : Store) (today : String) :
    (s.dbExists = true → countKey s.backups (backupPath today) ≤ 1 →
      lookupEntry ((backupDatabase s today).1).backups (backupPath today) =
          some (s.transactions, s.messages) ∧
        countKey ((backupDatabase s today).1).backups (backupPath today) = 1 ∧
        (backupDatabase ((backupDatabase s today).1) today).1 =
          (backupDatabase s today).1) ∧
    (s.dbExists = false → backupDatabase s today = (s, true)) := by
  constructor
  · intro hdb hcnt
    unfold backupDatabase
    simp only [hdb, if_true]
    refine ⟨lookupEntry_setEntry _ _ _, countKey_setEntry _ _ _ hcnt, ?_⟩
    simp [setEntry_idem]
  · intro hdb
    unfold backupDatabase
    simp [hdb]

/-- C8 witness: the concrete stores exercise both branches. -/
theorem backupDatabase_spec_witness :
    lookupEntry ((backupDatabase storeA "2024-06-15").1).backups
        (backupPath "2024-06-15") =
        some (storeA.transactions, storeA.messages) ∧
      backupDatabase storeNoDb "2024-06-15" = (storeNoDb, true) :=
  ⟨((backupDatabase_spec storeA "2024-06-15").1 rfl (by decide)).1,
    (backupDatabase_spec storeNoDb "2024-06-15").2 rfl⟩

/-- C1: a wrong confirmation token yields the validation failure and leaves
the whole store untouched; the exact sentinel empties both record sets and
leaves a backup of the prior record sets at the path named by the current
day (given that the database file exists, which holds whenever the server
has opened its database). -/
theorem clearAllData_spec (token : Option JsVal) (s : Store)
    (today ts : String) :
    (token ≠ some (.str clearSentinel) →
      (clearAllData token s today ts).response = .error confirmMsg ∧
        (clearAllData token s today ts).store = s) ∧
    (s.dbExists = true →
      (clearAllData (some (.str clearSentinel)) s today ts).store.transactions
          = [] ∧
        (clearAllData (some (.str clearSentinel)) s today ts).store.messages
          = [] ∧
        lookupEntry
          (clearAllData (some (.str clearSentinel)) s today ts).store.backups
          (backupPath today) = some (s.transactions, s.messages)) := by
  constructor
  · intro hne
    unfold clearAllData
    rw [if_neg hne]
    exact ⟨rfl, rfl⟩
  · intro hdb
    unfold clearAllData
    rw [if_pos rfl]
    refine ⟨rfl, rfl, ?_⟩
    show lookupEntry ((backupDatabase s today).1).backups (backupPath today)
      = some (s.transactions, s.messages)
    unfold backupDatabase
    simp only [hdb, if_true]
    exact lookupEntry_setEntry _ _ _

/-- C1 witness: concrete wrong-token and correct-token runs. -/
theorem clearAllData_spec_witness :
    ((clearAllData (some (.str "nope")) storeA "2024-06-15" "TS").store
        = storeA ∧
      (clearAllData (some (.str clearSentinel)) storeA "2024-06-15"
          "TS").store.transactions = []) ∧
      lookupEntry (clearAllData (some (.str clearSentinel)) storeA "2024-06-15"
          "TS").store.backups (backupPath "2024-06-15") =
        some (storeA.transactions, storeA.messages) :=
  ⟨⟨((clearAllData_spec (some (.str "nope")) storeA "2024-06-15" "TS").1
        (by decide)).2,
    ((clearAllData_spec (some (.str "nope")) storeA "2024-06-15" "TS").2
        rfl).1⟩,
    ((clearAllData_spec (some (.str "nope")) storeA "2024-06-15" "TS").2
        rfl).2.2⟩

/-- The request body used by the C3 counterexample: every required field
truthy, `amountPaid = -5`. -/
def inpNeg : TxInput :=
  ⟨some (.str "A"), some (.str "1"), some (.str "X"), some (.num (-5)),
    some (.str "B"), none, some (.str "2024-01-01")⟩

/-- A request body missing its `date`, rejected by validation. -/
def inpMissingDate : TxInput :=
  ⟨some (.str "A"), some (.str "1"), some (.str "X"), some (.num 10),
    some (.str "B"), none, none⟩

/-- A fully-populated valid request body (`expenses = 2`). -/
def inpFull : TxInput :=
  ⟨some (.str "A"), some (.str "1"), some (.str "X"), some (.num 10),
    some (.str "B"), some (.num 2), some (.str "2024-01-01")⟩

set_option maxRecDepth 10000 in
/-- C3 counterexample: the validation test is JS falsiness, so the negative
amount `-5` is truthy and the transaction is accepted and inserted with
`amountPaid = -5 < 0`, refuting "no transaction with a negative amountPaid is
ever inserted". -/
theorem createTransaction_accepts_negative :
    createTransaction inpNeg 7 "2024-01-02T00:00:00.000Z" =
        .ok ⟨7, "A", "1", "X", -5, "B", 0, "2024-01-01",
          "2024-01-02T00:00:00.000Z"⟩ ∧
      (-5 : Int) < 0 :=
  ⟨rfl, by decide⟩

/-- C3 (amended): creation fails with the validation error whenever a
required field is missing or falsy (empty string, or the number 0 — so a zero
`amountPaid` is also rejected); for accepted numeric `amountPaid` the
inserted value equals the given nonzero number, which may be negative (there
is no `≥ 0` check). -/
theorem createTransaction_validation (inp : TxInput) (newId : Nat)
    (ts : String) :
    (requiredMissing inp = true →
      createTransaction inp newId ts = .error requiredMsg) ∧
    (∀ a : Int, inp.amountPaid = some (.num a) → ∀ r : Tx,
      createTransaction inp newId ts = .ok r →
      a ≠ 0 ∧ r.amountPaid = a) := by
  constructor
  · intro h
    unfold createTransaction
    rw [if_pos h]
  · intro a ha r hr
    unfold createTransaction at hr
    by_cases h : requiredMissing inp = true
    · rw [if_pos h] at hr
      exact Except.noConfusion hr
    · rw [if_neg h] at hr
      simp only [Except.ok.injEq] at hr
      subst hr
      constructor
      · intro ha0
        apply h
        unfold requiredMissing
        rw [ha, ha0]
        simp [truthy]
      · simp [jsField, jsToNumber, ha]

/-- C3 witness: a missing date is rejected; the `-5` body is accepted with
amount `-5`. -/
theorem createTransaction_validation_witness :
    createTransaction inpMissingDate 1 "TS" = .error requiredMsg ∧
      ((-5 : Int) ≠ 0 ∧
        (⟨7, "A", "1", "X", -5, "B", 0, "2024-01-01",
          "2024-01-02T00:00:00.000Z"⟩ : Tx).amountPaid = -5) :=
  ⟨(createTransaction_validation inpMissingDate 1 "TS").1 (by decide),
    (createTransaction_validation inpNeg 7 "2024-01-02T00:00:00.000Z").2
      (-5) rfl _ rfl⟩

/-- C4: an accepted creation materializes the record with the date normalized
to the `YYYY-MM-DD` rendering of the parsed caller-supplied date, and with
expenses equal to the supplied number, or 0 when the field is absent or
falsy. -/
theorem createTransaction_materializes (inp : TxInput) (newId : Nat)
    (ts s : String) (dv : Ymd) (r : Tx)
    (hdate : inp.date = some (.str s)) (hp : parseYmd s = some dv)
    (hok : createTransaction inp newId ts = .ok r) :
    r.date = formatDate dv ∧
    (truthy inp.expenses = false → r.expenses = 0) ∧
    (∀ e : Int, inp.expenses = some (.num e) → e ≠ 0 → r.expenses = e) := by
  unfold createTransaction at hok
  by_cases h : requiredMissing inp = true
  · rw [if_pos h] at hok
    exact Except.noConfusion hok
  · rw [if_neg h] at hok
    simp only [Except.ok.injEq] at hok
    subst hok
    refine ⟨?_, ?_, ?_⟩
    · simp [jsFormatDateVal, hdate, hp]
    · intro hf
      simp [hf, jsToNumber]
    · intro e he hne
      simp [he, jsField, jsToNumber, truthy, hne]

set_option maxRecDepth 10000 in
/-- C4 witness: the fully-populated body materializes with normalized date
and both expense behaviours. -/
theorem createTransaction_materializes_witness :
    (⟨3, "A", "1", "X", 10, "B", 2, "2024-01-01", "T3"⟩ : Tx).date =
        formatDate ⟨2024, 1, 1⟩ ∧
      (⟨3, "A", "1", "X", 10, "B", 2, "2024-01-01", "T3"⟩ : Tx).expenses = 2 := by
  have h := createTransaction_materializes inpFull 3 "T3" "2024-01-01"
    ⟨2024, 1, 1⟩ ⟨3, "A", "1", "X", 10, "B", 2, "2024-01-01", "T3"⟩
    rfl (by decide) rfl
  exact ⟨h.1, h.2.2 2 rfl (by decide)⟩

/-- C2: the period filter yields an equality condition on today for `day`; a
lower bound exactly 7 calendar days back for `week`; a calendar-aware
one-month-back lower bound for `month` (previous calendar month with the day
kept whenever it fits — and not a fixed 30 days, as the concrete conjunct
shows); a one-calendar-year-back lower bound for `year` (month and day kept
whenever the day fits); and no condition at all — never an error — for an
absent, `all`, or unrecognized period. -/
theorem listDateCond_spec (now : Ymd) (hv : now.Valid) :
    listDateCond (some "day") now = some (.eqDate (formatDate now)) ∧
    (listDateCond (some "week") now =
        some (.geDate (formatDate (jsSetDateMinus7 now))) ∧
      toDays (jsSetDateMinus7 now) + 7 = toDays now) ∧
    (listDateCond (some "month") now =
        some (.geDate (formatDate (jsSetMonthMinus1 now))) ∧
      (2 ≤ now.m → now.d ≤ daysInMonth now.y (now.m - 1) →
        jsSetMonthMinus1 now = ⟨now.y, now.m - 1, now.d⟩) ∧
      (now.m = 1 → jsSetMonthMinus1 now = ⟨now.y - 1, 12, now.d⟩) ∧
      toDays ⟨1, 3, 31⟩ - toDays (jsSetMonthMinus1 ⟨1, 3, 31⟩) ≠ 30) ∧
    (listDateCond (some "year") now =
        some (.geDate (formatDate (jsSetFullYearMinus1 now))) ∧
      (now.d ≤ daysInMonth (now.y - 1) now.m →
        jsSetFullYearMinus1 now = ⟨now.y - 1, now.m, now.d⟩)) ∧
    (listDateCond none now = none ∧
      ∀ p : String, p ∉ (["day", "week", "month", "year"] : List String) →
        listDateCond (some p) now = none) := by
  obtain ⟨hy1, hm1, hm12, hd1, hdm⟩ := hv
  refine ⟨rfl, ⟨rfl, toDays_jsSetDateMinus7 now ⟨hy1, hm1, hm12, hd1, hdm⟩⟩,
    ⟨rfl, ?_, ?_, by decide⟩, ⟨rfl, ?_⟩, rfl, ?_⟩
  · intro hm2 hfit
    unfold jsSetMonthMinus1
    rw [if_neg (by omega), if_pos hfit]
  · intro hjan
    unfold jsSetMonthMinus1
    rw [if_pos hjan]
  · intro hfit
    unfold jsSetFullYearMinus1
    rw [if_pos hfit]
  · intro p hp
    simp only [List.mem_cons, List.not_mem_nil, or_false, not_or] at hp
    obtain ⟨hpd, hpw, hpm, hpy⟩ := hp
    simp only [listDateCond]
    by_cases h0 : p = "" ∨ p = "all"
    · rw [if_pos h0]
    · rw [if_neg h0, if_neg hpd, if_neg hpw, if_neg hpm, if_neg hpy]

/-- C2 witness: the filter evaluated at the concrete date 2024-06-15. -/
theorem listDateCond_spec_witness :
    listDateCond (some "day") ⟨2024, 6, 15⟩ =
        some (.eqDate (formatDate ⟨2024, 6, 15⟩)) ∧
      toDays (jsSetDateMinus7 ⟨2024, 6, 15⟩) + 7 = toDays ⟨2024, 6, 15⟩ ∧
      listDateCond (some "bogus") ⟨2024, 6, 15⟩ = none := by
  have h := listDateCond_spec ⟨2024, 6, 15⟩ (by decide)
  exact ⟨h.1, h.2.1.2, h.2.2.2.2.2 "bogus" (by decide)⟩

/-- C10: the period filters impose no upper bound: a stored transaction dated
strictly after today (in the SQLite text order used by the queries) is
returned by the week, month and year listings, but excluded by the day
listing. -/
theorem future_dates_spec (now : Ymd) (txs : List Tx) (t : Tx)
    (hv : now.Valid) (hy : now.y < 10000) (hmem : t ∈ txs)
    (hfut : sqlLt (formatDate now) t.date = true) :
    t ∈ listTransactions (some "week") now txs ∧
    t ∈ listTransactions (some "month") now txs ∧
    t ∈ listTransactions (some "year") now txs ∧
    t ∉ listTransactions (some "day") now txs := by
  have hm100 : now.m < 100 := by
    obtain ⟨_, _, hm12, _, _⟩ := hv
    omega
  have hd100 : now.d < 100 := by
    obtain ⟨_, _, _, _, hdm⟩ := hv
    have := daysInMonth_bounds now.y now.m
    omega
  have hweek := jsSetDateMinus7_lt now hv
  have hmonth := jsSetMonthMinus1_lt now hv
  have hyear := jsSetFullYearMinus1_lt now hv
  have hle_w : sqlLe (formatDate (jsSetDateMinus7 now)) (formatDate now)
      = true :=
    sqlLe_formatDate _ _ (by omega) hy hweek.2.2.1 hm100 hweek.2.2.2 hd100
      (by rw [hweek.1]; intro hc; exact Ordering.noConfusion hc)
  have hle_m : sqlLe (formatDate (jsSetMonthMinus1 now)) (formatDate now)
      = true :=
    sqlLe_formatDate _ _ (by omega) hy hmonth.2.2.1 hm100 hmonth.2.2.2 hd100
      (by rw [hmonth.1]; intro hc; exact Ordering.noConfusion hc)
  have hle_y : sqlLe (formatDate (jsSetFullYearMinus1 now)) (formatDate now)
      = true :=
    sqlLe_formatDate _ _ (by omega) hy hyear.2.2.1 hm100 hyear.2.2.2 hd100
      (by rw [hyear.1]; intro hc; exact Ordering.noConfusion hc)
  have hfutle := sqlLt_to_le hfut
  refine ⟨?_, ?_, ?_, ?_⟩
  · rw [mem_listTransactions]
    exact ⟨hmem, by
      show sqlLe (formatDate (jsSetDateMinus7 now)) t.date = true
      exact sqlLe_trans hle_w hfutle⟩
  · rw [mem_listTransactions]
    exact ⟨hmem, by
      show sqlLe (formatDate (jsSetMonthMinus1 now)) t.date = true
      exact sqlLe_trans hle_m hfutle⟩
  · rw [mem_listTransactions]
    exact ⟨hmem, by
      show sqlLe (formatDate (jsSetFullYearMinus1 now)) t.date = true
      exact sqlLe_trans hle_y hfutle⟩
  · rw [mem_listTransactions]
    rintro ⟨-, hmat⟩
    have hne := sqlLt_ne hfut
    have heq : t.date = formatDate now := by
      have : (t.date == formatDate now) = true := hmat
      exact beq_iff_eq.mp this
    exact hne heq.symm

set_option maxRecDepth 10000 in
/-- C10 witness: a transaction dated 2025-01-01 against the clock date
2024-06-15. -/
theorem future_dates_spec_witness :
    txFut ∈ listTransactions (some "week") ⟨2024, 6, 15⟩ [txFut] ∧
      txFut ∉ listTransactions (some "day") ⟨2024, 6, 15⟩ [txFut] := by
  have h := future_dates_spec ⟨2024, 6, 15⟩ [txFut] txFut (by decide)
    (by decide) (by decide) (by decide)
  exact ⟨h.1, h.2.2.2⟩

end BusinessPortal
